import Mathlib

/-!
Shallow embedding of the PDF-translation pipeline of `translatorv3.py`
(functions `extract_text_from_pdf`, `translate_text`,
`create_translated_pdf`, and the worker body `process_translation`),
together with theorems settling the specification claims about it.

External collaborators (PyPDF2 page text extraction, pdf2image
rasterization, pytesseract recognition, the Argos translation runtime,
and ReportLab's `doc.build`) are modelled as data carried by the inputs:
a page carries the result of direct extraction and the result of
rasterizing it; an image carries the result of recognizing it; a
language carries its outgoing translations, each with its runtime
callable; the document builder is a function argument.  Errors are the
exact exception message strings the Python code raises.
-/

namespace PDFTranslator

/-- Python's whitespace set for `str.strip()`. -/
def pyIsSpace (c : Char) : Bool :=
  c = ' ' || c = '\t' || c = '\n' || c = '\r' || c = '\x0b' || c = '\x0c'

/-- Characters of Python's `s.strip()`: drop whitespace at both ends. -/
def pyStripChars (l : List Char) : List Char :=
  ((l.dropWhile pyIsSpace).reverse.dropWhile pyIsSpace).reverse

/-- Python's `s.strip()`. -/
def pyStrip (s : String) : String :=
  String.mk (pyStripChars s.data)

/-- Python's `needle in hay` on strings (contiguous subsequence test). -/
def isInfixB (needle : List Char) : List Char → Bool
  | [] => needle.isEmpty
  | l@(_ :: rest) => needle.isPrefixOf l || isInfixB needle rest

/-- Python's `text.split("\n\n")`: greedy left-to-right split on the
two-character separator, keeping empty fields. -/
def splitNN : List Char → List (List Char)
  | '\n' :: '\n' :: rest => [] :: splitNN rest
  | c :: rest =>
    match splitNN rest with
    | [] => [[c]]
    | h :: t => (c :: h) :: t
  | [] => [[]]

/-- One rasterized page image, carrying the outcome of running
recognition (`pytesseract.image_to_string`) on it. -/
structure OcrImage where
  ocr : Except String String

/-- One input page: the result of `page.extract_text()` (`none` models an
absent result) and the outcome of `convert_from_path` on that page. -/
structure Page where
  extractText : Option String
  raster : Except String (List OcrImage)

/-- The OCR fallback branch of `extract_text_from_pdf` (lines 102-108):
rasterize the page; if that raises, propagate the cause; if it yields no
images, contribute nothing; otherwise recognize the first image. -/
def fallbackOcr (p : Page) : Except String (Option String) :=
  match p.raster with
  | .error c => .error c
  | .ok [] => .ok none
  | .ok (img :: _) =>
    match img.ocr with
    | .error c => .error c
    | .ok t => .ok (some t)

/-- The per-page body of `extract_text_from_pdf`'s loop: accept the
direct text when it is present and non-blank, else fall back to OCR.
`.ok (some s)` means `s ++ "\n"` is appended to the accumulated text;
`.ok none` means nothing is appended. -/
def pageStep (p : Page) : Except String (Option String) :=
  match p.extractText with
  | some t => if pyStrip t = "" then fallbackOcr p else .ok (some t)
  | none => fallbackOcr p

/-- Whether the code enters the OCR fallback branch for `p`, i.e.
invokes `convert_from_path` (rasterization) on that page. -/
def invokesRaster (p : Page) : Bool :=
  match p.extractText with
  | some t => if pyStrip t = "" then true else false
  | none => true

/-- Whether the code invokes `pytesseract.image_to_string` (recognition)
on page `p`: the fallback branch is entered, rasterization succeeds, and
it yields at least one image. -/
def invokesOcr (p : Page) : Bool :=
  invokesRaster p &&
    (match p.raster with
     | .ok (_ :: _) => true
     | _ => false)

/-- What a page appends to the accumulated text: the accepted text
followed by `"\n"`, or nothing. -/
def contribText : Option String → String
  | some s => s ++ "\n"
  | none => ""

/-- The text page `p` contributes to the accumulated document text
(empty when its step fails, since the loop aborts there). -/
def pageContrib (p : Page) : String :=
  match pageStep p with
  | .ok c => contribText c
  | .error _ => ""

/-- Concatenated contributions of a list of pages. -/
def contribsConcat (ps : List Page) : String :=
  ps.foldr (fun p acc => pageContrib p ++ acc) ""

/-- The progress value `(i / num_pages) * 50` reported after page `i` of
an `n`-page document. -/
def eventAt (i n : Nat) : ℚ :=
  ((i : ℚ) / (n : ℚ)) * 50

/-- The message raised at line 108 for an OCR failure on page `i`. -/
def ocrPageMsg (i : Nat) (cause : String) : String :=
  "Error during OCR on page " ++ toString i ++ ": " ++ cause

/-- The wrapping applied by the handler at lines 111-112. -/
def extractWrap (s : String) : String :=
  "Error extracting text from PDF: " ++ s

/-- The message raised at line 114 when the whole text is blank. -/
def noTextMsg : String :=
  "No text could be extracted from the PDF."

/-- The page loop of `extract_text_from_pdf` (lines 97-110): processes
pages in order starting at 1-based index `i` of an `n`-page document,
accumulating text in `acc`, and returns the progress values delivered to
the callback together with the loop's outcome. -/
def extractGo : List Page → Nat → Nat → String → List ℚ × Except String String
  | [], _, _, acc => ([], .ok acc)
  | p :: rest, i, n, acc =>
    match pageStep p with
    | .error cause => ([], .error (ocrPageMsg i cause))
    | .ok c =>
      let r := extractGo rest (i + 1) n (acc ++ contribText c)
      (eventAt i n :: r.1, r.2)

/-- `extract_text_from_pdf` (lines 91-115): run the page loop; any
exception escaping it is wrapped by the outer handler; afterwards a
blank concatenated text raises the no-text error; otherwise the raw
accumulated text is returned.  The first component is the list of
progress values delivered to the callback. -/
def extract_text_from_pdf (pages : List Page) : List ℚ × Except String String :=
  let r := extractGo pages 1 pages.length ""
  match r.2 with
  | .error e => (r.1, .error (extractWrap e))
  | .ok t => if pyStrip t = "" then (r.1, .error noTextMsg) else (r.1, .ok t)

/-- One outgoing Argos translation of a language: the target language
code and the runtime callable `translation.translate`. -/
structure Translation where
  toCode : String
  run : String → Except String String

/-- One installed Argos language. -/
structure Language where
  code : String
  translations : List Translation

/-- The lookup loop of `translate_text` (lines 123-127): every language
whose code matches overwrites the previous match, so the last match
wins. -/
def findLang (langs : List Language) (code : String) : Option Language :=
  langs.foldl (fun acc l => if l.code = code then some l else acc) none

/-- Argos `Language.get_translation`: the first outgoing translation
whose target code matches, if any. -/
def get_translation (l : Language) (tgt : Language) : Option Translation :=
  l.translations.find? (fun t => t.toCode == tgt.code)

/-- The wrapping applied by the handler at lines 132-133. -/
def translationWrap (s : String) : String :=
  "Error during translation: " ++ s

/-- The message raised at line 129 when a language object is missing. -/
def notInstalledCause : String :=
  "Translation packages for the selected language pair are not installed."

/-- The Python `AttributeError` message produced at line 131 when
`get_translation` returned `None` and `.translate` is accessed on it. -/
def noneTypeCause : String :=
  "\x27NoneType\x27 object has no attribute \x27translate\x27"

/-- `translate_text` (lines 118-133): look up both language objects,
raise if either is missing, fetch the direct translation (calling
`.translate` on `None` when there is none), and run the runtime; every
exception is wrapped by the handler at line 133. -/
def translate_text (langs : List Language) (text fromCode toCode : String) :
    Except String String :=
  match findLang langs fromCode, findLang langs toCode with
  | some f, some t =>
    match get_translation f t with
    | none => .error (translationWrap noneTypeCause)
    | some tr =>
      match tr.run text with
      | .ok s => .ok s
      | .error e => .error (translationWrap e)
  | _, _ => .error (translationWrap notInstalledCause)

/-- Whether `translate_text` reaches the call `translation.translate(text)`
into the translation runtime: both language objects are found and a
direct translation exists. -/
def translationRuntimeInvoked (langs : List Language) (fromCode toCode : String) : Bool :=
  match findLang langs fromCode, findLang langs toCode with
  | some f, some t => (get_translation f t).isSome
  | _, _ => false

/-- A ReportLab story element: a paragraph of text or a fixed spacer. -/
inductive Flowable where
  | para (s : String)
  | spacer (w h : Nat)
deriving DecidableEq

/-- The story built by `create_translated_pdf` (lines 140-146): split on
`"\n\n"`, replace internal `'\n'` by spaces, drop candidates blank after
stripping, and append one stripped paragraph plus a `Spacer(1, 12)` per
survivor. -/
def storyOf (text : String) : List Flowable :=
  (splitNN text.data).foldl
    (fun story para0 =>
      let para := para0.map (fun c => if c = '\n' then ' ' else c)
      if pyStripChars para = [] then story
      else story ++ [Flowable.para (String.mk (pyStripChars para)), Flowable.spacer 1 12])
    []

/-- The paragraph texts of a story, in order. -/
def storyParagraphs (fl : List Flowable) : List String :=
  fl.filterMap fun f =>
    match f with
    | .para s => some s
    | .spacer _ _ => none

/-- What one split candidate adds to the story. -/
def emitOne (para0 : List Char) : List Flowable :=
  let para := para0.map (fun c => if c = '\n' then ' ' else c)
  if pyStripChars para = [] then []
  else [Flowable.para (String.mk (pyStripChars para)), Flowable.spacer 1 12]

/-- `create_translated_pdf` (lines 136-149): build the story and hand it
to ReportLab's `doc.build` (the collaborator `build`); any failure is
wrapped.  Returns the built story on success. -/
def create_translated_pdf (text : String)
    (build : List Flowable → Except String Unit) : Except String (List Flowable) :=
  let story := storyOf text
  match build story with
  | .ok _ => .ok story
  | .error e => .error ("Error creating translated PDF: " ++ e)

/-- The worker body `process_translation` (lines 343-376): run the three
stages in order, emitting 50, 75 and 100 at the stage boundaries; on any
stage failure the error message is surfaced and progress is reset to 0.
The first component is the full sequence of progress values delivered to
`update_progress` by the worker. -/
def process_translation (pages : List Page) (langs : List Language)
    (fromCode toCode : String) (build : List Flowable → Except String Unit) :
    List ℚ × Except String Unit :=
  let r := extract_text_from_pdf pages
  match r.2 with
  | .error e => (r.1 ++ [0], .error e)
  | .ok extracted =>
    match translate_text langs extracted fromCode toCode with
    | .error e => (r.1 ++ [50, 0], .error e)
    | .ok translated =>
      match create_translated_pdf translated build with
      | .error e => (r.1 ++ [50, 75, 0], .error e)
      | .ok _ => (r.1 ++ [50, 75, 100], .ok ())

/-! ### Helper lemmas about the acquisition loop -/

theorem contribsConcat_nil : contribsConcat [] = "" := rfl

theorem contribsConcat_cons (p : Page) (ps : List Page) :
    contribsConcat (p :: ps) = pageContrib p ++ contribsConcat ps := rfl

theorem contribsConcat_append (l1 l2 : List Page) :
    contribsConcat (l1 ++ l2) = contribsConcat l1 ++ contribsConcat l2 := by
  induction l1 with
  | nil => simp [contribsConcat_nil, String.empty_append]
  | cons p rest ih =>
    rw [List.cons_append, contribsConcat_cons, contribsConcat_cons, ih,
      String.append_assoc]

/-- When every page's step succeeds, the loop reports one progress value
per page and accumulates every page's contribution. -/
theorem extractGo_ok (ps : List Page) (hok : ∀ p ∈ ps, ∃ c, pageStep p = .ok c) :
    ∀ (i n : Nat) (acc : String),
      extractGo ps i n acc =
        ((List.range' i ps.length).map (fun j => eventAt j n),
          .ok (acc ++ contribsConcat ps)) := by
  induction ps with
  | nil =>
    intro i n acc
    simp [extractGo, contribsConcat_nil, String.append_empty]
  | cons p rest ih =>
    intro i n acc
    obtain ⟨c, hc⟩ := hok p (List.mem_cons_self p rest)
    have hrest : ∀ q ∈ rest, ∃ d, pageStep q = .ok d :=
      fun q hq => hok q (List.mem_cons_of_mem p hq)
    have hcc : contribsConcat (p :: rest) = contribText c ++ contribsConcat rest := by
      rw [contribsConcat_cons, pageContrib, hc]
    rw [extractGo, hc]
    simp only [ih hrest (i + 1) n (acc ++ contribText c)]
    rw [hcc, List.length_cons, List.range'_succ i rest.length 1, List.map_cons,
      String.append_assoc]

/-- When the first per-page failure happens at 1-based position
`as.length + i` (`i` the starting index), the loop stops there with the
OCR error for that page, having reported progress only for the pages
before it. -/
theorem extractGo_err (as : List Page) (p : Page) (bs : List Page) (cause : String)
    (hok : ∀ q ∈ as, ∃ c, pageStep q = .ok c) (hp : pageStep p = .error cause) :
    ∀ (i n : Nat) (acc : String),
      extractGo (as ++ p :: bs) i n acc =
        ((List.range' i as.length).map (fun j => eventAt j n),
          .error (ocrPageMsg (i + as.length) cause)) := by
  induction as with
  | nil =>
    intro i n acc
    simp [extractGo, hp]
  | cons q rest ih =>
    intro i n acc
    obtain ⟨c, hc⟩ := hok q (List.mem_cons_self q rest)
    have hrest : ∀ r ∈ rest, ∃ d, pageStep r = .ok d :=
      fun r hr => hok r (List.mem_cons_of_mem q hr)
    rw [List.cons_append, extractGo, hc]
    simp only [ih hrest (i + 1) n (acc ++ contribText c)]
    rw [List.length_cons, List.range'_succ i rest.length 1, List.map_cons]
    have harith : i + 1 + rest.length = i + (rest.length + 1) := by omega
    rw [harith]

/-- The progress values reported by `extract_text_from_pdf` are exactly
those reported by its page loop (the trailing blank-text check reports
nothing). -/
theorem extract_fst (pages : List Page) :
    (extract_text_from_pdf pages).1 = (extractGo pages 1 pages.length "").1 := by
  unfold extract_text_from_pdf
  cases h : (extractGo pages 1 pages.length "").2 with
  | error e => simp [h]
  | ok t =>
    simp only [h]
    split <;> rfl

/-! ### Arithmetic facts about the reported progress values -/

theorem eventAt_nonneg (i n : Nat) : 0 ≤ eventAt i n := by
  unfold eventAt
  positivity

theorem eventAt_le_50 (i n : Nat) (hn : 1 ≤ n) (hi : i ≤ n) : eventAt i n ≤ 50 := by
  unfold eventAt
  have hn' : (0 : ℚ) < (n : ℚ) := by exact_mod_cast hn
  have hdiv : (i : ℚ) / (n : ℚ) ≤ 1 := (div_le_one hn').mpr (by exact_mod_cast hi)
  calc ((i : ℚ) / (n : ℚ)) * 50 ≤ 1 * 50 :=
        mul_le_mul_of_nonneg_right hdiv (by norm_num)
    _ = 50 := by norm_num

theorem eventAt_mono (i n : Nat) : eventAt i n ≤ eventAt (i + 1) n := by
  unfold eventAt
  rcases Nat.eq_zero_or_pos n with hn | hn
  · subst hn
    simp
  · have hn' : (0 : ℚ) < (n : ℚ) := by exact_mod_cast hn
    have : (i : ℚ) / (n : ℚ) ≤ ((i + 1 : Nat) : ℚ) / (n : ℚ) :=
      (div_le_div_iff_of_pos_right hn').mpr (by exact_mod_cast Nat.le_succ i)
    exact mul_le_mul_of_nonneg_right this (by norm_num)

theorem chain'_map_range' (f : Nat → ℚ) (h : ∀ j, f j ≤ f (j + 1)) :
    ∀ (s m : Nat), ((List.range' s m).map f).Chain' (· ≤ ·) := by
  intro s m
  induction m generalizing s with
  | zero => simp
  | succ m ih =>
    rw [List.range'_succ s m 1, List.map_cons, List.chain'_cons']
    refine ⟨?_, ih (s + 1)⟩
    intro y hy
    cases m with
    | zero => simp at hy
    | succ k =>
      rw [List.range'_succ (s + 1) k 1, List.map_cons] at hy
      simp only [List.head?_cons, Option.mem_def, Option.some.injEq] at hy
      exact hy ▸ h s

/-! ### Claims about the acquisition stage -/

/-- C2: if recognition fails on a page (all earlier pages having been
processed successfully), the whole acquisition fails with the wrapped
OCR error carrying that page's 1-based index and the underlying cause,
and no text is returned to the caller. -/
theorem C2_ocr_failure_is_fatal (as : List Page) (p : Page) (bs : List Page)
    (cause : String)
    (hok : ∀ q ∈ as, ∃ c, pageStep q = .ok c) (hp : pageStep p = .error cause) :
    (extract_text_from_pdf (as ++ p :: bs)).2 =
      .error (extractWrap (ocrPageMsg (as.length + 1) cause)) ∧
    ∀ s, (extract_text_from_pdf (as ++ p :: bs)).2 ≠ .ok s := by
  have h := extractGo_err as p bs cause hok hp 1 ((as ++ p :: bs).length) ""
  rw [Nat.add_comm 1 as.length] at h
  constructor
  · unfold extract_text_from_pdf
    rw [h]
  · intro s
    unfold extract_text_from_pdf
    rw [h]
    simp

theorem C2_witness :
    (extract_text_from_pdf
        [⟨some "Hello", .ok []⟩, ⟨none, .error "boom"⟩]).2 =
      .error (extractWrap (ocrPageMsg 2 "boom")) := by
  have h := C2_ocr_failure_is_fatal [⟨some "Hello", .ok []⟩] ⟨none, .error "boom"⟩
    [] "boom"
    (by
      intro q hq
      simp only [List.mem_singleton] at hq
      subst hq
      exact ⟨some "Hello", rfl⟩)
    rfl
  exact h.1

/-- C3: a successful acquisition never returns blank text; if every page
is processed without a per-page failure but the concatenated text is
blank, the stage fails with the no-text error; and that error is
distinct from every wrapped per-page OCR error. -/
theorem C3_blank_text_is_noTextFound :
    (∀ pages t, (extract_text_from_pdf pages).2 = .ok t → pyStrip t ≠ "") ∧
    (∀ pages, (∀ p ∈ pages, ∃ c, pageStep p = .ok c) →
      pyStrip (contribsConcat pages) = "" →
      (extract_text_from_pdf pages).2 = .error noTextMsg) ∧
    (∀ i cause, extractWrap (ocrPageMsg i cause) ≠ noTextMsg) := by
  refine ⟨?_, ?_, ?_⟩
  · intro pages t h
    simp only [extract_text_from_pdf] at h
    cases hE : (extractGo pages 1 pages.length "").2 with
    | error e => simp [hE] at h
    | ok v =>
      by_cases hb : pyStrip v = ""
      · simp [hE, hb] at h
      · simp [hE, hb] at h
        rw [← h]
        exact hb
  · intro pages hok hblank
    have h := extractGo_ok pages hok 1 pages.length ""
    rw [String.empty_append] at h
    simp only [extract_text_from_pdf]
    rw [h]
    simp [hblank]
  · intro i cause h
    have h1 : (extractWrap (ocrPageMsg i cause)).data.head? = some 'E' := by
      rw [extractWrap, String.data_append]
      rfl
    rw [h] at h1
    have h2 : noTextMsg.data.head? = some 'N' := rfl
    rw [h2] at h1
    exact absurd (Option.some.inj h1) (by decide)

theorem C3_witness :
    (extract_text_from_pdf [(⟨none, .ok []⟩ : Page)]).2 = .error noTextMsg ∧
    extractWrap (ocrPageMsg 1 "boom") ≠ noTextMsg := by
  refine ⟨?_, C3_blank_text_is_noTextFound.2.2 1 "boom"⟩
  exact C3_blank_text_is_noTextFound.2.1 [⟨none, .ok []⟩]
    (by
      intro p hp
      simp only [List.mem_singleton] at hp
      subst hp
      exact ⟨none, rfl⟩)
    rfl

/-- C4: for a document of `N ≥ 1` pages all of whose page steps
complete, acquisition reports exactly one progress value per page, the
value after page `i` being `(i / N) * 50`; the reported sequence is
non-decreasing and every value lies in `[0, 50]`. -/
theorem C4_progress_values (pages : List Page) (hne : 1 ≤ pages.length)
    (hok : ∀ p ∈ pages, ∃ c, pageStep p = .ok c) :
    (extract_text_from_pdf pages).1 =
      (List.range' 1 pages.length).map (fun i => eventAt i pages.length) ∧
    (extract_text_from_pdf pages).1.Chain' (· ≤ ·) ∧
    (∀ v ∈ (extract_text_from_pdf pages).1, 0 ≤ v ∧ v ≤ 50) ∧
    (extract_text_from_pdf pages).1.length = pages.length := by
  have hgo := extractGo_ok pages hok 1 pages.length ""
  have hfst : (extract_text_from_pdf pages).1 =
      (List.range' 1 pages.length).map (fun i => eventAt i pages.length) := by
    rw [extract_fst, hgo]
  refine ⟨hfst, ?_, ?_, ?_⟩
  · rw [hfst]
    exact chain'_map_range' (fun j => eventAt j pages.length)
      (fun j => eventAt_mono j pages.length) 1 pages.length
  · intro v hv
    rw [hfst] at hv
    obtain ⟨j, hj, rfl⟩ := List.mem_map.mp hv
    obtain ⟨hj1, hj2⟩ := List.mem_range'_1.mp hj
    exact ⟨eventAt_nonneg j pages.length,
      eventAt_le_50 j pages.length hne (by omega)⟩
  · rw [hfst]
    simp

theorem C4_witness :
    (extract_text_from_pdf [(⟨some "A", .ok []⟩ : Page), ⟨some "B", .ok []⟩]).1 =
      (List.range' 1 2).map (fun i => eventAt i 2) ∧
    (List.range' 1 2).map (fun i => eventAt i 2) = [25, 50] := by
  constructor
  · exact (C4_progress_values [⟨some "A", .ok []⟩, ⟨some "B", .ok []⟩]
      (by norm_num)
      (by
        intro p hp
        simp only [List.mem_cons, List.not_mem_nil, or_false] at hp
        rcases hp with rfl | rfl
        · exact ⟨some "A", rfl⟩
        · exact ⟨some "B", rfl⟩)).1
  · norm_num [eventAt, List.range']

/-- C9: in a document where every page's direct extraction yields
present, non-blank text, acquisition neither rasterizes nor runs
recognition on any page, and each page's step accepts the direct
text. -/
theorem C9_direct_text_skips_ocr (pages : List Page)
    (hdir : ∀ p ∈ pages, ∃ t, p.extractText = some t ∧ pyStrip t ≠ "") :
    ∀ p ∈ pages, invokesRaster p = false ∧ invokesOcr p = false ∧
      pageStep p = .ok p.extractText := by
  intro p hp
  obtain ⟨t, ht, hnb⟩ := hdir p hp
  refine ⟨?_, ?_, ?_⟩
  · rw [invokesRaster, ht]
    simp [hnb]
  · rw [invokesOcr, invokesRaster, ht]
    simp [hnb]
  · rw [pageStep, ht]
    simp [hnb]

theorem C9_witness :
    invokesRaster ⟨some "Hello", .error "raster broken"⟩ = false ∧
    invokesOcr ⟨some "Hello", .error "raster broken"⟩ = false ∧
    pageStep ⟨some "Hello", .error "raster broken"⟩ = .ok (some "Hello") := by
  have h := C9_direct_text_skips_ocr [⟨some "Hello", .error "raster broken"⟩]
    (by
      intro p hp
      simp only [List.mem_singleton] at hp
      subst hp
      exact ⟨"Hello", rfl, by decide⟩)
    ⟨some "Hello", .error "raster broken"⟩ (List.mem_singleton.mpr rfl)
  exact h

/-- C10: a page whose direct extraction is absent or blank and whose
rasterization returns an empty image list raises no error and appends
nothing at all to the text (not even a bare line break), yet its
progress value is still reported; the acquisition's outcome is that of
the remaining pages' contributions alone. -/
theorem C10_empty_raster_is_silent (as bs : List Page) (p : Page)
    (hblank : p.extractText = none ∨ ∃ t, p.extractText = some t ∧ pyStrip t = "")
    (hraster : p.raster = .ok [])
    (hok : ∀ q ∈ as ++ bs, ∃ c, pageStep q = .ok c) :
    pageStep p = .ok none ∧ pageContrib p = "" ∧
    (extract_text_from_pdf (as ++ p :: bs)).1 =
      (List.range' 1 (as ++ p :: bs).length).map
        (fun j => eventAt j (as ++ p :: bs).length) ∧
    (extract_text_from_pdf (as ++ p :: bs)).2 =
      (if pyStrip (contribsConcat as ++ contribsConcat bs) = ""
       then .error noTextMsg
       else .ok (contribsConcat as ++ contribsConcat bs)) := by
  have hstep : pageStep p = .ok none := by
    have hfall : fallbackOcr p = .ok none := by
      rw [fallbackOcr, hraster]
    rcases hblank with h | ⟨t, ht, hb⟩
    · rw [pageStep, h]
      exact hfall
    · rw [pageStep, ht]
      simp only [hb, if_pos rfl]
      exact hfall
  have hcontrib : pageContrib p = "" := by
    rw [pageContrib, hstep]
    rfl
  have hokAll : ∀ q ∈ as ++ p :: bs, ∃ c, pageStep q = .ok c := by
    intro q hq
    rcases List.mem_append.mp hq with h | h
    · exact hok q (List.mem_append.mpr (Or.inl h))
    · rcases List.mem_cons.mp h with rfl | h
      · exact ⟨none, hstep⟩
      · exact hok q (List.mem_append.mpr (Or.inr h))
  have htext : contribsConcat (as ++ p :: bs) =
      contribsConcat as ++ contribsConcat bs := by
    rw [contribsConcat_append, contribsConcat_cons, hcontrib, String.empty_append]
  have hgo := extractGo_ok (as ++ p :: bs) hokAll 1 (as ++ p :: bs).length ""
  rw [String.empty_append, htext] at hgo
  refine ⟨hstep, hcontrib, ?_, ?_⟩
  · rw [extract_fst, hgo]
  · simp only [extract_text_from_pdf]
    rw [hgo]
    by_cases hb : pyStrip (contribsConcat as ++ contribsConcat bs) = "" <;> simp [hb]

theorem C10_witness :
    pageStep ⟨none, .ok []⟩ = .ok none ∧
    (extract_text_from_pdf [(⟨some "Hello", .ok []⟩ : Page), ⟨none, .ok []⟩]).1 =
      (List.range' 1 2).map (fun j => eventAt j 2) ∧
    (extract_text_from_pdf [(⟨some "Hello", .ok []⟩ : Page), ⟨none, .ok []⟩]).2 =
      .ok "Hello\n" := by
  have h := C10_empty_raster_is_silent [⟨some "Hello", .ok []⟩] [] ⟨none, .ok []⟩
    (Or.inl rfl) rfl
    (by
      intro q hq
      simp only [List.append_nil, List.mem_singleton] at hq
      subst hq
      exact ⟨some "Hello", rfl⟩)
  exact ⟨h.1, h.2.2.1, h.2.2.2⟩

/-- C1 counterexample: a two-page document whose second page has absent
direct text and a rasterization that yields no images.  Acquisition
succeeds, yet the second page's text is obtained neither by direct
extraction (the result is absent) nor by recognition (recognition is
never invoked and the page contributes nothing), refuting the claim that
every page's text is obtained by one of the two routes. -/
theorem C1_counterexample :
    (extract_text_from_pdf [(⟨some "Hello", .ok []⟩ : Page), ⟨none, .ok []⟩]).2 =
      .ok "Hello\n" ∧
    (⟨none, .ok []⟩ : Page).extractText = none ∧
    invokesOcr ⟨none, .ok []⟩ = false ∧
    pageStep ⟨none, .ok []⟩ = .ok none ∧
    pageContrib ⟨none, .ok []⟩ = "" := by
  exact ⟨rfl, rfl, rfl, rfl, rfl⟩

/-- C1 (amended): per page, direct extraction's present non-blank text
is accepted as the page's text; otherwise the stage falls back to
rasterizing the page, and recognition on the first image supplies the
page's text (possibly empty) provided rasterization yields at least one
image; a rasterization that yields no images makes the page contribute
no text at all, and a failing rasterization fails the page. -/
theorem C1_page_text_policy (p : Page) :
    (∀ t, p.extractText = some t → pyStrip t ≠ "" → pageStep p = .ok (some t)) ∧
    ((p.extractText = none ∨ ∃ t, p.extractText = some t ∧ pyStrip t = "") →
      (∀ img imgs, p.raster = .ok (img :: imgs) →
        pageStep p = Except.map some img.ocr) ∧
      (p.raster = .ok [] → pageStep p = .ok none) ∧
      (∀ e, p.raster = .error e → pageStep p = .error e)) := by
  constructor
  · intro t ht hnb
    rw [pageStep, ht]
    simp [hnb]
  · intro hblank
    have hfall : pageStep p = fallbackOcr p := by
      rcases hblank with h | ⟨t, ht, hb⟩
      · rw [pageStep, h]
      · rw [pageStep, ht]
        simp [hb]
    refine ⟨?_, ?_, ?_⟩
    · intro img imgs hr
      rw [hfall, fallbackOcr, hr]
      cases himg : img.ocr <;> simp [himg, Except.map]
    · intro hr
      rw [hfall, fallbackOcr, hr]
    · intro e hr
      rw [hfall, fallbackOcr, hr]

theorem C1_witness :
    pageStep ⟨none, .ok [⟨Except.ok "Hola"⟩]⟩ = .ok (some "Hola") ∧
    pageStep ⟨some " \n", .error "rasterizer crashed"⟩ =
      .error "rasterizer crashed" ∧
    pageStep ⟨some "Hello", .error "rasterizer crashed"⟩ = .ok (some "Hello") := by
  refine ⟨?_, ?_, ?_⟩
  · exact ((C1_page_text_policy ⟨none, .ok [⟨Except.ok "Hola"⟩]⟩).2
      (Or.inl rfl)).1 ⟨Except.ok "Hola"⟩ [] rfl
  · exact ((C1_page_text_policy ⟨some " \n", .error "rasterizer crashed"⟩).2
      (Or.inr ⟨" \n", rfl, by decide⟩)).2.2 "rasterizer crashed" rfl
  · exact (C1_page_text_policy ⟨some "Hello", .error "rasterizer crashed"⟩).1
      "Hello" rfl (by decide)

/-! ### Claims about the translation stage -/

/-- C7 counterexample: with no languages installed, requesting a
French-to-German translation fails — but the error message is a fixed
sentence that names neither missing code: neither `"fr"` nor `"de"`
occurs in it, refuting "naming the missing code(s)". -/
theorem C7_counterexample :
    translate_text [] "bonjour" "fr" "de" =
      .error (translationWrap notInstalledCause) ∧
    isInfixB "fr".data (translationWrap notInstalledCause).data = false ∧
    isInfixB "de".data (translationWrap notInstalledCause).data = false ∧
    findLang [] "fr" = none ∧ findLang [] "de" = none := by
  refine ⟨rfl, ?_, ?_, rfl, rfl⟩ <;> decide

/-- C7 (amended): whenever at least one of the two codes does not
resolve to an installed language, the translation stage fails with the
language-pair-not-installed error — a fixed message that does not name
the missing code(s) — and the translation runtime is never invoked. -/
theorem C7_missing_language_fails (langs : List Language)
    (text fromCode toCode : String)
    (h : findLang langs fromCode = none ∨ findLang langs toCode = none) :
    translate_text langs text fromCode toCode =
      .error (translationWrap notInstalledCause) ∧
    translationRuntimeInvoked langs fromCode toCode = false := by
  rcases h with h | h
  · cases h2 : findLang langs toCode <;>
      simp [translate_text, translationRuntimeInvoked, h, h2]
  · cases h2 : findLang langs fromCode <;>
      simp [translate_text, translationRuntimeInvoked, h, h2]

theorem C7_witness :
    translate_text [⟨"en", []⟩] "hello" "en" "ko" =
      .error (translationWrap notInstalledCause) ∧
    translationRuntimeInvoked [⟨"en", []⟩] "en" "ko" = false := by
  exact C7_missing_language_fails [⟨"en", []⟩] "hello" "en" "ko" (Or.inr rfl)

/-- Two installed languages with no direct path between them. -/
def langsNoPath : List Language := [⟨"es", []⟩, ⟨"en", []⟩]

/-- The same two installed languages, now with a direct path whose
runtime call fails with the very cause string that the missing-path case
produces. -/
def langsFailingRuntime : List Language :=
  [⟨"es", [⟨"en", fun _ => .error noneTypeCause⟩]⟩, ⟨"en", []⟩]

/-- C8 counterexample: when both languages are installed but no direct
path exists, `translate_text` fails via the `AttributeError` raised by
calling `.translate` on `None`, wrapped by the generic translation
handler.  The very same error value is produced by a run in which a
direct path exists and the translation runtime itself fails with that
cause — so the missing-path failure is not an error distinct from a
runtime (`TranslationFailed`) error. -/
theorem C8_counterexample :
    translate_text langsNoPath "hola" "es" "en" =
      translate_text langsFailingRuntime "hola" "es" "en" ∧
    translate_text langsNoPath "hola" "es" "en" =
      .error (translationWrap noneTypeCause) ∧
    translationRuntimeInvoked langsNoPath "es" "en" = false ∧
    translationRuntimeInvoked langsFailingRuntime "es" "en" = true := by
  exact ⟨rfl, rfl, rfl, rfl⟩

/-- C8 (amended): when both codes resolve to installed languages but no
direct translation path exists between them, the stage fails with the
wrapped `'NoneType' object has no attribute 'translate'` error — which
differs from the language-not-installed error but is the same generic
wrapping used for runtime failures, not a distinct error kind — the
translation runtime is never invoked, and no multi-hop pivot translation
is attempted. -/
theorem C8_no_direct_path_fails (langs : List Language)
    (text fromCode toCode : String) (f t : Language)
    (hf : findLang langs fromCode = some f) (ht : findLang langs toCode = some t)
    (hpath : get_translation f t = none) :
    translate_text langs text fromCode toCode =
      .error (translationWrap noneTypeCause) ∧
    translationRuntimeInvoked langs fromCode toCode = false ∧
    translationWrap noneTypeCause ≠ translationWrap notInstalledCause := by
  refine ⟨?_, ?_, by decide⟩
  · simp [translate_text, hf, ht, hpath]
  · simp [translationRuntimeInvoked, hf, ht, hpath]

theorem C8_witness :
    translate_text langsNoPath "buenos dias" "es" "en" =
      .error (translationWrap noneTypeCause) ∧
    translationRuntimeInvoked langsNoPath "es" "en" = false := by
  have h := C8_no_direct_path_fails langsNoPath "buenos dias" "es" "en"
    ⟨"es", []⟩ ⟨"en", []⟩ rfl rfl rfl
  exact ⟨h.1, h.2.1⟩

/-! ### Claim about the rendering stage -/

/-- C6: rendering splits the text on double line breaks, collapses
internal line breaks within each candidate into spaces, drops candidates
blank after trimming, and emits one (stripped) paragraph followed by a
fixed `Spacer(1, 12)` per surviving candidate; `"A\n\nB"` yields exactly
the paragraphs `"A"` then `"B"`, `"A\nA2\n\nB"` yields `"A A2"` then
`"B"`, and an all-blank input yields zero paragraphs. -/
theorem C6_paragraph_rendering :
    (∀ text, storyOf text = (splitNN text.data).flatMap emitOne) ∧
    (∀ para0, emitOne para0 = [] ∨
      (pyStripChars (para0.map (fun c => if c = '\n' then ' ' else c)) ≠ [] ∧
        emitOne para0 =
          [Flowable.para (String.mk
              (pyStripChars (para0.map (fun c => if c = '\n' then ' ' else c)))),
            Flowable.spacer 1 12])) ∧
    storyParagraphs (storyOf "A\n\nB") = ["A", "B"] ∧
    storyParagraphs (storyOf "A\nA2\n\nB") = ["A A2", "B"] ∧
    storyOf " \n \n\n\t\n " = [] ∧
    storyOf "" = [] := by
  refine ⟨?_, ?_, by decide, by decide, by decide, by decide⟩
  · intro text
    have hbody : ∀ (l : List (List Char)) (s0 : List Flowable),
        l.foldl
          (fun story para0 =>
            let para := para0.map (fun c => if c = '\n' then ' ' else c)
            if pyStripChars para = [] then story
            else story ++ [Flowable.para (String.mk (pyStripChars para)),
              Flowable.spacer 1 12])
          s0 = s0 ++ l.flatMap emitOne := by
      intro l
      induction l with
      | nil => intro s0; simp
      | cons a l ih =>
        intro s0
        rw [List.foldl_cons, List.flatMap_cons, ih]
        by_cases h : pyStripChars (a.map (fun c => if c = '\n' then ' ' else c)) = [] <;>
          simp [emitOne, h]
    rw [storyOf, hbody, List.nil_append]
  · intro para0
    by_cases h : pyStripChars (para0.map (fun c => if c = '\n' then ' ' else c)) = []
    · exact Or.inl (by simp [emitOne, h])
    · exact Or.inr ⟨h, by simp [emitOne, h]⟩

/-! ### Claim about the pipeline orchestrator -/

/-- C5: in every pipeline run, progress is forced to exactly 50
immediately after acquisition succeeds, 75 immediately after translation
succeeds, and 100 after the rendered document is persisted — regardless
of the last per-page value reported during acquisition — and on any
stage failure progress is reset to 0 and that stage's error is
surfaced. -/
theorem C5_stage_boundary_progress (pages : List Page) (langs : List Language)
    (fromCode toCode : String) (build : List Flowable → Except String Unit) :
    (∀ e, (extract_text_from_pdf pages).2 = .error e →
      process_translation pages langs fromCode toCode build =
        ((extract_text_from_pdf pages).1 ++ [0], .error e)) ∧
    (∀ t e, (extract_text_from_pdf pages).2 = .ok t →
      translate_text langs t fromCode toCode = .error e →
      process_translation pages langs fromCode toCode build =
        ((extract_text_from_pdf pages).1 ++ [50, 0], .error e)) ∧
    (∀ t u e, (extract_text_from_pdf pages).2 = .ok t →
      translate_text langs t fromCode toCode = .ok u →
      build (storyOf u) = .error e →
      process_translation pages langs fromCode toCode build =
        ((extract_text_from_pdf pages).1 ++ [50, 75, 0],
          .error ("Error creating translated PDF: " ++ e))) ∧
    (∀ t u, (extract_text_from_pdf pages).2 = .ok t →
      translate_text langs t fromCode toCode = .ok u →
      build (storyOf u) = .ok () →
      process_translation pages langs fromCode toCode build =
        ((extract_text_from_pdf pages).1 ++ [50, 75, 100], .ok ())) := by
  refine ⟨?_, ?_, ?_, ?_⟩
  · intro e h1
    simp [process_translation, h1]
  · intro t e h1 h2
    simp [process_translation, h1, h2]
  · intro t u e h1 h2 h3
    simp [process_translation, create_translated_pdf, h1, h2, h3]
  · intro t u h1 h2 h3
    simp [process_translation, create_translated_pdf, h1, h2, h3]

/-- A one-page document, an installed es→en identity path, and a
builder that always succeeds: a fully successful run. -/
theorem C5_witness :
    process_translation [⟨some "Hi", .ok []⟩]
        [⟨"es", [⟨"en", fun s => Except.ok s⟩]⟩, ⟨"en", []⟩] "es" "en"
        (fun _ => .ok ()) =
      ([eventAt 1 1, 50, 75, 100], .ok ()) ∧
    eventAt 1 1 = 50 := by
  constructor
  · exact (C5_stage_boundary_progress [⟨some "Hi", .ok []⟩]
      [⟨"es", [⟨"en", fun s => Except.ok s⟩]⟩, ⟨"en", []⟩] "es" "en"
      (fun _ => .ok ())).2.2.2 "Hi\n" "Hi\n" rfl rfl rfl
  · norm_num [eventAt]

end PDFTranslator
